import Mathlib

/-!
A shallow embedding of the story-synchronization engine of `bmad_sync`
(`src/bmad_sync/sync.py` and `src/bmad_sync/pull.py`), together with proofs
settling the specification claims about it.

Strings are modelled as Lean `String` (lists of unicode scalar values),
matching Python `str` at the code-point level.  Python's `str.strip`,
`str.lower` and `str.splitlines` are modelled on the Basic Latin / Latin-1
range (ASCII case mapping, the whitespace and line-break characters below);
all string literals appearing in the program are ASCII, so this is faithful
on every input the claims exercise.
-/

namespace BmadSync

/-- Line-break characters recognised by Python `str.splitlines`. -/
def isLineBreak (c : Char) : Bool :=
  c = '\n' || c = '\r' || c = '\x0b' || c = '\x0c' ||
  c = '\x1c' || c = '\x1d' || c = '\x1e' || c = '\x85' || c = '\u2028' || c = '\u2029'

/-- Whitespace characters recognised by Python `str.strip` (Latin-1 range). -/
def pyIsSpace (c : Char) : Bool :=
  c = ' ' || c = '\t' || c = '\n' || c = '\r' || c = '\x0b' || c = '\x0c' ||
  c = '\x1c' || c = '\x1d' || c = '\x1e' || c = '\x1f' || c = '\x85' || c = '\xa0'

/-- Helper for `pySplitlines`: accumulates the current line (reversed) while
scanning.  The boolean records that the previous character was a `\r` that
already ended a line, so that an immediately following `\n` is consumed
silently — `\r\n` counts as a single break, as in Python. -/
def splitlinesAux : List Char → List Char → Bool → List (List Char)
  | [], acc, _ => if acc = [] then [] else [acc.reverse]
  | c :: rest, acc, afterCR =>
    if afterCR = true ∧ c = '\n' then splitlinesAux rest acc false
    else if isLineBreak c then acc.reverse :: splitlinesAux rest [] (c = '\r')
    else splitlinesAux rest (c :: acc) false

/-- Python `str.splitlines`. -/
def pySplitlines (s : String) : List String :=
  (splitlinesAux s.data [] false).map String.mk

/-- Python `str.strip()` on the underlying character list. -/
def pyStripL (l : List Char) : List Char :=
  List.rdropWhile pyIsSpace (List.dropWhile pyIsSpace l)

/-- Python `str.strip()`. -/
def pyStrip (s : String) : String := ⟨pyStripL s.data⟩

/-- Python `str.rstrip()`. -/
def pyRstrip (s : String) : String := ⟨List.rdropWhile pyIsSpace s.data⟩

/-- Python `str.lower()` (ASCII case mapping). -/
def pyLower (s : String) : String := ⟨s.data.map Char.toLower⟩

/-- Python `str.strip(q)` for a single character `q`. -/
def pyStripChar (q : Char) (s : String) : String :=
  ⟨List.rdropWhile (fun c => c = q) (List.dropWhile (fun c => c = q) s.data)⟩

/-- Python `str.startswith`. -/
def pyStartsWith (s pat : String) : Bool := pat.data.isPrefixOf s.data

/-- Python `line.split(":", 1)[1]`: everything after the first colon
(empty when the string has no colon; in the program this is only applied to
lines known to contain one). -/
def afterFirstColon (s : String) : String :=
  ⟨(s.data.dropWhile (fun c => c ≠ ':')).drop 1⟩

/-- Python `str.replace(" ", "_")`. -/
def pyReplaceSpaceUnderscore (s : String) : String :=
  ⟨s.data.map (fun c => if c = ' ' then '_' else c)⟩

/-- Model of `pathlib.Path.stem` of a bare filename: the name without its last
extension (`0 < i < len - 1` dot-position rule of `pathlib`). -/
def pathStem (name : String) : String :=
  let r := name.data.reverse
  let ext := r.takeWhile (fun c => c ≠ '.')
  match r.dropWhile (fun c => c ≠ '.') with
  | '.' :: pre =>
    if pre = [] ∨ ext = [] then name else ⟨pre.reverse⟩
  | _ => name

/-- Model of `pathlib.Path.suffix` of a bare filename. -/
def pathSuffix (name : String) : String :=
  let r := name.data.reverse
  let ext := r.takeWhile (fun c => c ≠ '.')
  match r.dropWhile (fun c => c ≠ '.') with
  | '.' :: pre =>
    if pre = [] ∨ ext = [] then "" else ⟨'.' :: ext.reverse⟩
  | _ => ""

/-- Python `"\n".join(lines)`. -/
def joinLines : List String → String
  | [] => ""
  | [l] => l
  | l :: rest => l ++ "\n" ++ joinLines rest

/-! ## `pull.py` -/

/-- Model of `pull.PullResult`. -/
structure PullResult where
  total_items : Nat
  written_stories : Nat
  deriving DecidableEq, Repr

/-- Model of `pull.StoryRecord` and of the items returned by `list_project_story_details`. -/
structure StoryDetail where
  story_id : String
  title : String
  status : String
  deriving DecidableEq, Repr

/-- Model of `pull._normalize_status`. -/
def _normalize_status (status : String) : String :=
  let normalized := pyLower (pyStrip status)
  if normalized = "todo" then "todo"
  else if normalized = "in progress" ∨ normalized = "in_progress" ∨
      normalized = "in-progress" then "in_progress"
  else if normalized = "done" then "done"
  else pyReplaceSpaceUnderscore normalized

/-- The `for idx in range(1, len(lines))` scan of `pull._split_frontmatter`:
finds the next line whose stripped form is `---`, returning the lines before
it (the frontmatter) and the lines after it (the body). -/
def fmScan : List String → List String → Option (List String × List String)
  | [], _ => none
  | l :: rest, acc =>
    if pyStrip l = "---" then some (acc.reverse, rest)
    else fmScan rest (l :: acc)

/-- Model of `pull._split_frontmatter`. -/
def _split_frontmatter (content : String) : Option (List String) × List String :=
  let lines := pySplitlines content
  match lines with
  | [] => (none, lines)
  | first :: rest =>
    if pyStrip first ≠ "---" then (none, lines)
    else
      match fmScan rest [] with
      | some (fm, body) => (some fm, body)
      | none => (none, lines)

/-- The filter condition of `pull._build_frontmatter`: a carried-forward line
is dropped when its stripped, lower-cased form starts with `title:` or
`status:`. -/
def ownedLine (line : String) : Bool :=
  pyStartsWith (pyLower (pyStrip line)) "title:" ||
  pyStartsWith (pyLower (pyStrip line)) "status:"

/-- The `for line in existing` loop body of `pull._build_frontmatter`. -/
def filterCarried : List String → List String
  | [] => []
  | line :: rest =>
    if ownedLine line then filterCarried rest
    else line :: filterCarried rest

/-- The freshly rendered `title: "<title>"` line. -/
def titleLine (title : String) : String := "title: \"" ++ title ++ "\""

/-- The freshly rendered `status: "<status>"` line. -/
def statusLine (status : String) : String := "status: \"" ++ status ++ "\""

/-- Model of `pull._build_frontmatter`. -/
def _build_frontmatter (title status : String) (existing : Option (List String)) :
    List String :=
  let filtered := match existing with
    | none => []
    | some ls => filterCarried ls
  titleLine title :: statusLine status :: filtered

/-- The rendering tail of `pull._render_story_content`, after the existing
content has been split into frontmatter and body. -/
def renderParts (title status : String) (frontmatter : Option (List String))
    (body_lines : List String) : String :=
  let frontmatter_lines := _build_frontmatter title status frontmatter
  let body := if body_lines = [] then ["# " ++ title, ""] else body_lines
  pyRstrip (joinLines (["---"] ++ frontmatter_lines ++ ["---", ""] ++ body)) ++ "\n"

/-- Model of `pull._render_story_content` (Python truthiness: an empty existing
content behaves like `None`). -/
def _render_story_content (title status : String) (existing_content : Option String) :
    String :=
  match existing_content with
  | some c =>
    if c ≠ "" then
      let p := _split_frontmatter c
      renderParts title status p.1 p.2
    else renderParts title status none []
  | none => renderParts title status none []

/-! ## `sync.py` -/

/-- Model of `sync.SyncResult`. -/
structure SyncResult where
  total_stories : Nat
  updated_stories : Nat
  deriving DecidableEq, Repr

/-- Errors raised by the synchronizers: `AuthenticationError` from
`validate_auth`, and the `ValueError` of `_parse_story_file` (carrying its
message). -/
inductive SyncError where
  | authFailed
  | parseError (msg : String)
  deriving DecidableEq, Repr

deriving instance DecidableEq for Except

/-- Model of `sync._extract_frontmatter_value`. -/
def _extract_frontmatter_value (lines : List String) (key : String) : Option String :=
  match lines with
  | [] => none
  | line :: rest =>
    if pyStartsWith (pyStrip line) (key ++ ":") then
      some (pyStripChar '\'' (pyStripChar '"' (pyStrip (afterFirstColon line))))
    else _extract_frontmatter_value rest key

/-- Model of `sync._parse_story_file`, on a filename and the file's content. -/
def _parse_story_file (name content : String) :
    Except SyncError (String × String × String) :=
  let lines := pySplitlines content
  match _extract_frontmatter_value lines "title",
      _extract_frontmatter_value lines "status" with
  | some title, some status => .ok (pathStem name, title, status)
  | _, _ => .error (.parseError ("Missing frontmatter fields in " ++ name))

/-- One story item on the remote project board, as observable through the
Project Board Client interface (`story_id`-keyed, with a title and a status
field). -/
structure BoardItem where
  story_id : String
  title : String
  status : String
  deriving DecidableEq, Repr

/-- State of the Project Board Client: whether the credentials are valid,
and the current board items in listing order.  This is the in-memory model
of the client's abstract contract (create-or-update keyed by `story_id`,
idempotent archive), the shape the spec prescribes for reasoning about the
synchronizers. -/
structure ClientState where
  authOk : Bool
  board : List BoardItem
  deriving DecidableEq, Repr

/-- Contract of `upsert_story` on the board: update the status of the first
existing item with this `story_id`, or append a fresh item. -/
def upsertBoard (board : List BoardItem) (story_id title status : String) :
    List BoardItem :=
  match board with
  | [] => [⟨story_id, title, status⟩]
  | it :: rest =>
    if it.story_id = story_id then ⟨it.story_id, it.title, status⟩ :: rest
    else it :: upsertBoard rest story_id title status

/-- Contract of `archive_story` on the board: remove the first item with
this `story_id`; a no-op when absent (idempotent archive). -/
def archiveBoard (board : List BoardItem) (story_id : String) : List BoardItem :=
  match board with
  | [] => []
  | it :: rest =>
    if it.story_id = story_id then rest
    else it :: archiveBoard rest story_id

/-- Remote calls issued by `sync_stories`, in order. -/
inductive RemoteEv where
  | validateAuth
  | upsert (story_id title status : String)
  | listStories
  | archive (story_id : String)
  deriving DecidableEq, Repr

/-- The list comprehension `[_parse_story_file(path) for path in story_files]`:
parses files in order, propagating the first failure. -/
def parseStories (files : List (String × String)) :
    Except SyncError (List (String × String × String)) :=
  match files with
  | [] => .ok []
  | (name, content) :: rest =>
    match _parse_story_file name content with
    | .error e => .error e
    | .ok r =>
      match parseStories rest with
      | .error e => .error e
      | .ok rs => .ok (r :: rs)

/-- The `sorted(p for p in bmad_output_dir.iterdir() if p.is_file() and
p.suffix == ".md")` listing: the `.md` files of the directory, sorted by
filename (all paths share the directory prefix, so path order is filename
order). -/
def mdFiles (dir : List (String × String)) : List (String × String) :=
  List.insertionSort (fun a b => a.1 ≤ b.1)
    (dir.filter (fun f => pathSuffix f.1 = ".md"))

/-- Story ids of a board listing, in order (`list_project_stories`). -/
def boardIds (board : List BoardItem) : List String :=
  board.map (fun it => it.story_id)

/-- The archive set of `sync_stories`:
`sorted(existing_story_ids - current_story_ids)` where `existing_story_ids`
is the set of listed ids and `current_story_ids` the set of pushed ids. -/
def archiveList (existing current : List String) : List String :=
  List.insertionSort (fun a b => a ≤ b)
    ((existing.filter (fun i => ¬ i ∈ current)).dedup)

/-- Model of `sync.sync_stories` on a directory snapshot (filename/content
pairs) and a client state.  Returns the result or error, the final client
state, and the trace of remote calls issued. -/
def sync_stories (dir : List (String × String)) (c : ClientState) :
    Except SyncError SyncResult × ClientState × List RemoteEv :=
  if c.authOk = false then (.error .authFailed, c, [.validateAuth])
  else
    match parseStories (mdFiles dir) with
    | .error e => (.error e, c, [.validateAuth])
    | .ok parsed =>
      let board1 := parsed.foldl (fun b r => upsertBoard b r.1 r.2.1 r.2.2) c.board
      let upEvs := parsed.map (fun r => RemoteEv.upsert r.1 r.2.1 r.2.2)
      let existing := boardIds board1
      let current := parsed.map (fun r => r.1)
      let toArchive := archiveList existing current
      let board2 := toArchive.foldl (fun b i => archiveBoard b i) board1
      (.ok ⟨parsed.length, parsed.length⟩, ⟨c.authOk, board2⟩,
        .validateAuth :: upEvs ++ .listStories :: toArchive.map RemoteEv.archive)

/-- Local-filesystem and remote calls issued by `pull_stories`, in order. -/
inductive PullEv where
  | validateAuth
  | listDetails
  | write (name content : String)
  deriving DecidableEq, Repr

/-- Overwrite-or-create a file in the directory snapshot. -/
def setFile (fs : List (String × String)) (name content : String) :
    List (String × String) :=
  match fs with
  | [] => [(name, content)]
  | f :: rest =>
    if f.1 = name then (name, content) :: rest
    else f :: setFile rest name content

/-- The `for story in stories` loop of `pull_stories`: reads the existing
file when present, renders, writes.  Returns the updated directory, the
write events, and the number of files written. -/
def pullLoop (fs : List (String × String)) :
    List StoryDetail → List (String × String) × List PullEv × Nat
  | [] => (fs, [], 0)
  | story :: rest =>
    let target := story.story_id ++ ".md"
    let existing := fs.lookup target
    let content := _render_story_content story.title
      (_normalize_status story.status) existing
    let r := pullLoop (setFile fs target content) rest
    (r.1, .write target content :: r.2.1, r.2.2 + 1)

/-- Model of `pull.pull_stories` on a directory snapshot, given the client's
auth state and the story details it lists. -/
def pull_stories (fs : List (String × String)) (details : List StoryDetail)
    (authOk : Bool) :
    Except SyncError PullResult × List (String × String) × List PullEv :=
  if authOk = false then (.error .authFailed, fs, [.validateAuth])
  else
    let r := pullLoop fs details
    (.ok ⟨details.length, r.2.2⟩, r.1, .validateAuth :: .listDetails :: r.2.1)

/-! ## Character-level helper lemmas -/

theorem charToNat_ofNat (m : Nat) (h : m.isValidChar) : (Char.ofNat m).toNat = m := by
  rw [Char.ofNat, dif_pos h]
  simp [Char.ofNatAux, Char.toNat, UInt32.toNat]

theorem toLower_toNat_of_upper (c : Char) (h : 65 ≤ c.toNat ∧ c.toNat ≤ 90) :
    c.toLower.toNat = c.toNat + 32 := by
  simp only [Char.toLower]
  split
  · exact charToNat_ofNat _ (Or.inl (by omega))
  · next hcond => exact absurd h hcond

theorem toLower_eq_self_of_not_upper (c : Char) (h : ¬(65 ≤ c.toNat ∧ c.toNat ≤ 90)) :
    c.toLower = c := by
  simp only [Char.toLower]
  split
  · next hcond => exact absurd hcond h
  · rfl

theorem char_eq_iff_toNat (c d : Char) : c = d ↔ c.toNat = d.toNat := by
  constructor
  · intro h; rw [h]
  · intro h
    exact Char.ext (UInt32.toNat.inj h)

theorem pyIsSpace_iff_toNat (c : Char) :
    pyIsSpace c = true ↔
      (c.toNat = 32 ∨ c.toNat = 9 ∨ c.toNat = 10 ∨ c.toNat = 13 ∨ c.toNat = 11 ∨
       c.toNat = 12 ∨ c.toNat = 28 ∨ c.toNat = 29 ∨ c.toNat = 30 ∨ c.toNat = 31 ∨
       c.toNat = 133 ∨ c.toNat = 160) := by
  simp only [pyIsSpace, Bool.or_eq_true, decide_eq_true_eq, char_eq_iff_toNat,
    show (' ').toNat = 32 by decide, show ('\t').toNat = 9 by decide,
    show ('\n').toNat = 10 by decide, show ('\r').toNat = 13 by decide,
    show ('\x0b').toNat = 11 by decide, show ('\x0c').toNat = 12 by decide,
    show ('\x1c').toNat = 28 by decide, show ('\x1d').toNat = 29 by decide,
    show ('\x1e').toNat = 30 by decide, show ('\x1f').toNat = 31 by decide,
    show ('\x85').toNat = 133 by decide, show ('\xa0').toNat = 160 by decide]
  tauto

theorem pyIsSpace_toLower (c : Char) : pyIsSpace c.toLower = pyIsSpace c := by
  by_cases h : 65 ≤ c.toNat ∧ c.toNat ≤ 90
  · have h1 := toLower_toNat_of_upper c h
    have h2 : pyIsSpace c.toLower = false := by
      rw [← Bool.not_eq_true, pyIsSpace_iff_toNat]; omega
    have h3 : pyIsSpace c = false := by
      rw [← Bool.not_eq_true, pyIsSpace_iff_toNat]; omega
    rw [h2, h3]
  · rw [toLower_eq_self_of_not_upper c h]

theorem toLower_idem (c : Char) : c.toLower.toLower = c.toLower := by
  by_cases h : 65 ≤ c.toNat ∧ c.toNat ≤ 90
  · have h1 := toLower_toNat_of_upper c h
    exact toLower_eq_self_of_not_upper _ (by omega)
  · rw [toLower_eq_self_of_not_upper c h]
    exact toLower_eq_self_of_not_upper c h

/-- The character map of `str.replace(" ", "_")`. -/
def spaceToUnderscore (c : Char) : Char := if c = ' ' then '_' else c

theorem pyReplaceSpaceUnderscore_data (s : String) :
    (pyReplaceSpaceUnderscore s).data = s.data.map spaceToUnderscore := rfl

theorem spaceToUnderscore_ne_space (c : Char) : spaceToUnderscore c ≠ ' ' := by
  unfold spaceToUnderscore
  by_cases h : c = ' ' <;> simp [h]

theorem spaceToUnderscore_eq_self (c : Char) (h : c ≠ ' ') : spaceToUnderscore c = c := by
  simp [spaceToUnderscore, h]

theorem toLower_spaceToUnderscore_toLower (c : Char) :
    (spaceToUnderscore c.toLower).toLower = spaceToUnderscore c.toLower := by
  by_cases h : c.toLower = ' '
  · rw [h]; rfl
  · rw [spaceToUnderscore_eq_self _ h, toLower_idem]

theorem pyIsSpace_spaceToUnderscore (c : Char) (h : pyIsSpace c = false) :
    pyIsSpace (spaceToUnderscore c) = false := by
  have hc : c ≠ ' ' := by
    intro he; rw [he] at h; exact absurd h (by decide)
  rw [spaceToUnderscore_eq_self c hc]
  exact h

/-! ## List-level helper lemmas for strip, lower and replace -/

theorem stripL_map_toLower (l : List Char) :
    pyStripL (l.map Char.toLower) = (pyStripL l).map Char.toLower := by
  have hp : pyIsSpace ∘ Char.toLower = pyIsSpace := by
    funext c; exact pyIsSpace_toLower c
  unfold pyStripL List.rdropWhile
  rw [List.dropWhile_map, hp, ← List.map_reverse, List.dropWhile_map, hp,
    ← List.map_reverse]

theorem pyStrip_pyLower (s : String) : pyStrip (pyLower s) = pyLower (pyStrip s) := by
  unfold pyStrip pyLower
  exact congrArg String.mk (stripL_map_toLower s.data)

theorem stripL_head_not_space (x : List Char) (h : pyStripL x ≠ []) :
    pyIsSpace ((pyStripL x).head h) = false := by
  have hpre : pyStripL x <+: List.dropWhile pyIsSpace x := List.rdropWhile_prefix _ _
  obtain ⟨t, ht⟩ := hpre
  have hd : (List.dropWhile pyIsSpace x).head? = some ((pyStripL x).head h) := by
    rw [← ht, List.head?_append, List.head?_eq_head h]
    rfl
  have h2 := List.head?_dropWhile_not pyIsSpace x
  rw [hd] at h2
  exact h2

theorem stripL_last_not_space (x : List Char) (h : pyStripL x ≠ []) :
    pyIsSpace ((pyStripL x).getLast h) = false := by
  unfold pyStripL at *
  have := List.rdropWhile_last_not pyIsSpace (List.dropWhile pyIsSpace x) h
  simpa using this

theorem stripL_eq_self_of_ends (l : List Char)
    (hh : ∀ h : l ≠ [], pyIsSpace (l.head h) = false)
    (hl : ∀ h : l ≠ [], pyIsSpace (l.getLast h) = false) :
    pyStripL l = l := by
  unfold pyStripL
  have h1 : List.dropWhile pyIsSpace l = l := by
    cases l with
    | nil => rfl
    | cons a t =>
      rw [List.dropWhile_cons_of_neg]
      have := hh (by simp)
      simp only [List.head_cons] at this
      simp [this]
  rw [h1]
  rw [List.rdropWhile_eq_self_iff]
  intro hne
  have := hl hne
  simp [this]

theorem head_not_space_of_map (f : Char → Char)
    (hf : ∀ c, pyIsSpace c = false → pyIsSpace (f c) = false)
    (l : List Char) (hh : ∀ h : l ≠ [], pyIsSpace (l.head h) = false) :
    ∀ h : l.map f ≠ [], pyIsSpace ((l.map f).head h) = false := by
  cases l with
  | nil => intro h; simp at h
  | cons a t =>
    intro h
    simp only [List.map_cons, List.head_cons]
    exact hf a (by simpa using hh (by simp))

theorem last_not_space_of_map (f : Char → Char)
    (hf : ∀ c, pyIsSpace c = false → pyIsSpace (f c) = false)
    (l : List Char) (hl : ∀ h : l ≠ [], pyIsSpace (l.getLast h) = false) :
    ∀ h : l.map f ≠ [], pyIsSpace ((l.map f).getLast h) = false := by
  intro h
  have hne : l ≠ [] := by simpa using h
  rw [List.getLast_map]
  exact hf _ (hl hne)

/-! ## Status normalization: C4 and C10 -/

/-- Status normalization as claim C4 words it: lower-case and trim, map the
three known statuses, and otherwise pass the string through with its
internal WHITESPACE characters converted to underscores. -/
def normalizeStatusClaimed (status : String) : String :=
  let n := pyStrip (pyLower status)
  if n = "todo" then "todo"
  else if n = "in progress" ∨ n = "in_progress" ∨ n = "in-progress" then "in_progress"
  else if n = "done" then "done"
  else ⟨n.data.map (fun c => if pyIsSpace c then '_' else c)⟩

/-- Status normalization as claim C4 reads after the forced amendment: only
internal SPACE characters (U+0020) are converted to underscores. -/
def normalizeStatusAmended (status : String) : String :=
  let n := pyStrip (pyLower status)
  if n = "todo" then "todo"
  else if n = "in progress" ∨ n = "in_progress" ∨ n = "in-progress" then "in_progress"
  else if n = "done" then "done"
  else ⟨n.data.map (fun c => if c = ' ' then '_' else c)⟩

theorem map_s2u_eq_self (l : List Char) (h : ∀ c ∈ l, c ≠ ' ') :
    l.map spaceToUnderscore = l := by
  induction l with
  | nil => rfl
  | cons a t ih =>
    simp only [List.map_cons]
    rw [spaceToUnderscore_eq_self a (h a (by simp)), ih (fun c hc => h c (by simp [hc]))]

theorem map_s2u_eq_of_no_underscore (l t : List Char)
    (h : l.map spaceToUnderscore = t) (hu : ∀ c ∈ t, c ≠ '_') : l = t := by
  induction l generalizing t with
  | nil => simpa using h.symm
  | cons a l' ih =>
    cases t with
    | nil => simp at h
    | cons b t' =>
      simp only [List.map_cons, List.cons.injEq] at h
      have hb : b ≠ '_' := hu b (by simp)
      have hab : a = b := by
        by_cases ha : a = ' '
        · exact absurd (by rw [← h.1, ha]; rfl) hb
        · rw [← h.1, spaceToUnderscore_eq_self a ha]
      rw [hab, ih t' h.2 (fun c hc => hu c (by simp [hc]))]

theorem mem_map_s2u_ne_space (l : List Char) :
    ∀ c ∈ l.map spaceToUnderscore, c ≠ ' ' := by
  intro c hc
  obtain ⟨a, _, rfl⟩ := List.mem_map.mp hc
  exact spaceToUnderscore_ne_space a

/-- The possible outcomes of `_normalize_status`. -/
theorem normalize_eq_cases (s : String) :
    _normalize_status s = "todo" ∨ _normalize_status s = "in_progress" ∨
    _normalize_status s = "done" ∨
    (_normalize_status s = pyReplaceSpaceUnderscore (pyLower (pyStrip s)) ∧
      pyLower (pyStrip s) ≠ "in-progress") := by
  unfold _normalize_status
  by_cases h1 : pyLower (pyStrip s) = "todo"
  · simp [h1]
  by_cases h2 : pyLower (pyStrip s) = "in progress" ∨
      pyLower (pyStrip s) = "in_progress" ∨ pyLower (pyStrip s) = "in-progress"
  · simp [h1, h2]
  by_cases h3 : pyLower (pyStrip s) = "done"
  · simp [h1, h2, h3]
  · right; right; right
    constructor
    · simp [h1, h2, h3]
    · intro he
      exact h2 (Or.inr (Or.inr he))

/-- The fallback output of `_normalize_status` is a fixed point as long as
it is not the literal `in-progress`. -/
theorem normalize_fixed (r : String) (ha : pyStrip r = r) (hb : pyLower r = r)
    (hc : ∀ c ∈ r.data, c ≠ ' ') (hd : r ≠ "in-progress") :
    _normalize_status r = r := by
  unfold _normalize_status
  rw [ha, hb]
  by_cases h1 : r = "todo"
  · simp [h1]
  by_cases h2 : r = "in_progress"
  · simp [h1, h2]
  have hip : r ≠ "in progress" := by
    intro he
    have hsp : (' ' : Char) ∈ r.data := by rw [he]; decide
    exact hc ' ' hsp rfl
  by_cases h3 : r = "done"
  · simp [h1, h2, h3, hip, hd]
  · have h2' : ¬(r = "in progress" ∨ r = "in_progress" ∨ r = "in-progress") := by
      simp [hip, h2, hd]
    simp only [h1, if_false, h2', h3, if_neg]
    show pyReplaceSpaceUnderscore r = r
    show String.mk (r.data.map spaceToUnderscore) = r
    rw [map_s2u_eq_self r.data hc]

/-- Facts about the fallback value `pyReplaceSpaceUnderscore (pyLower
(pyStrip s))`: it is strip-fixed, lower-fixed and space-free. -/
theorem fallback_strip_fixed (s : String) :
    pyStrip (pyReplaceSpaceUnderscore (pyLower (pyStrip s))) =
      pyReplaceSpaceUnderscore (pyLower (pyStrip s)) := by
  have hh0 : ∀ h : pyStripL s.data ≠ [], pyIsSpace ((pyStripL s.data).head h) = false :=
    fun h => stripL_head_not_space s.data h
  have hl0 : ∀ h : pyStripL s.data ≠ [], pyIsSpace ((pyStripL s.data).getLast h) = false :=
    fun h => stripL_last_not_space s.data h
  have hlow : ∀ c, pyIsSpace c = false → pyIsSpace (Char.toLower c) = false := by
    intro c hcf; rw [pyIsSpace_toLower]; exact hcf
  have hh1 := head_not_space_of_map Char.toLower hlow (pyStripL s.data) hh0
  have hl1 := last_not_space_of_map Char.toLower hlow (pyStripL s.data) hl0
  have hh2 := head_not_space_of_map spaceToUnderscore pyIsSpace_spaceToUnderscore
    ((pyStripL s.data).map Char.toLower) hh1
  have hl2 := last_not_space_of_map spaceToUnderscore pyIsSpace_spaceToUnderscore
    ((pyStripL s.data).map Char.toLower) hl1
  show String.mk (pyStripL (((pyStripL s.data).map Char.toLower).map spaceToUnderscore)) = _
  rw [stripL_eq_self_of_ends _ hh2 hl2]
  rfl

theorem fallback_lower_fixed (s : String) :
    pyLower (pyReplaceSpaceUnderscore (pyLower (pyStrip s))) =
      pyReplaceSpaceUnderscore (pyLower (pyStrip s)) := by
  show String.mk ((((pyStripL s.data).map Char.toLower).map spaceToUnderscore).map Char.toLower) = _
  rw [List.map_map, List.map_map]
  have : ((Char.toLower ∘ spaceToUnderscore) ∘ Char.toLower) =
      (spaceToUnderscore ∘ Char.toLower) := by
    funext c
    exact toLower_spaceToUnderscore_toLower c
  rw [this, ← List.map_map]
  rfl

/-- C10: status normalization is idempotent.  Normalizing the result of a
normalization yields it unchanged, for every input string. -/
theorem C10_normalize_status_idempotent (s : String) :
    _normalize_status (_normalize_status s) = _normalize_status s := by
  rcases normalize_eq_cases s with h | h | h | ⟨h, hni⟩ <;> rw [h]
  · decide
  · decide
  · decide
  · have hc : ∀ c ∈ (pyReplaceSpaceUnderscore (pyLower (pyStrip s))).data, c ≠ ' ' :=
      mem_map_s2u_ne_space _
    have hd : pyReplaceSpaceUnderscore (pyLower (pyStrip s)) ≠ "in-progress" := by
      intro he
      have hdata : ((pyLower (pyStrip s)).data).map spaceToUnderscore =
          ("in-progress" : String).data := congrArg String.data he
      have := map_s2u_eq_of_no_underscore _ _ hdata (by decide)
      exact hni (by
        have : String.mk (pyLower (pyStrip s)).data = String.mk ("in-progress" : String).data :=
          congrArg String.mk this
        simpa using this)
    exact normalize_fixed _ (fallback_strip_fixed s) (fallback_lower_fixed s) hc hd

/-- C4 counterexample: claim C4 says internal whitespace is converted to
underscores, but the code only replaces the space character: on the input
`"a\tb"` (internal tab) the code passes the tab through unchanged while the
claim's reading demands `"a_b"`. -/
theorem C4_counterexample_tab_not_replaced :
    _normalize_status "a\tb" = "a\tb" ∧ normalizeStatusClaimed "a\tb" = "a_b" ∧
      ("a\tb" : String) ≠ "a_b" := by
  refine ⟨by decide, by decide, by decide⟩

/-- C4 (amended): status normalization lower-cases and trims the input;
`todo`, the three `in progress` spellings and `done` map to the canonical
statuses, and every other string passes through with its internal SPACE
characters (U+0020) converted to underscores. -/
theorem C4_normalize_status_amended (status : String) :
    _normalize_status status = normalizeStatusAmended status := by
  unfold _normalize_status normalizeStatusAmended
  rw [pyStrip_pyLower]
  rfl

/-! ## Frontmatter split: C5 -/

/-- Delimiter test actually used by `_split_frontmatter`: the STRIPPED line
equals `---`. -/
def isDelim (l : String) : Bool := pyStrip l = "---"

theorem fmScan_eq (ls : List String) : ∀ acc : List String,
    fmScan ls acc =
      match ls.dropWhile (fun l => !isDelim l) with
      | [] => none
      | _ :: rest => some (acc.reverse ++ ls.takeWhile (fun l => !isDelim l), rest) := by
  induction ls with
  | nil => intro acc; rfl
  | cons l rest ih =>
    intro acc
    by_cases h : pyStrip l = "---"
    · have hd : isDelim l = true := by simp [isDelim, h]
      simp only [fmScan, h, if_pos, List.dropWhile_cons, List.takeWhile_cons, hd,
        Bool.not_true, Bool.false_eq_true, if_false, List.append_nil]
    · have hd : isDelim l = false := by simp [isDelim, h]
      simp only [fmScan, h, if_false, List.dropWhile_cons, List.takeWhile_cons, hd,
        Bool.not_false, if_true, ih]
      cases hrest : rest.dropWhile (fun l => !isDelim l) with
      | nil => rfl
      | cons x r => simp

/-- Closed form of `_split_frontmatter`, following the amended claim C5:
frontmatter is returned exactly when the first line's TRIMMED form is `---`
and some later line also trims to `---`; the frontmatter is everything
strictly between the first line and the next trimmed delimiter, the body is
everything after that delimiter, and otherwise the whole line list is the
body with frontmatter absent. -/
def splitFrontmatterSpec (content : String) : Option (List String) × List String :=
  let lines := pySplitlines content
  match lines with
  | [] => (none, [])
  | first :: rest =>
    if isDelim first ∧ rest.dropWhile (fun l => !isDelim l) ≠ [] then
      (some (rest.takeWhile (fun l => !isDelim l)),
        (rest.dropWhile (fun l => !isDelim l)).tail)
    else (none, first :: rest)

/-- C5 (amended): `_split_frontmatter` equals its closed form — the
delimiter comparisons are on TRIMMED lines, not on exact `---` lines; it
returns the strictly-between lines as frontmatter, everything after the
closing delimiter as body, and is total (it falls back to the whole content
as body, and never fails). -/
theorem C5_split_frontmatter_amended (content : String) :
    _split_frontmatter content = splitFrontmatterSpec content := by
  unfold _split_frontmatter splitFrontmatterSpec
  cases hl : pySplitlines content with
  | nil => rfl
  | cons first rest =>
    by_cases h : pyStrip first = "---"
    · have hd : isDelim first = true := by simp [isDelim, h]
      simp only [h, ne_eq, not_true_eq_false, if_false, fmScan_eq, hd, true_and,
        List.nil_append]
      cases hrest : rest.dropWhile (fun l => !isDelim l) with
      | nil => simp
      | cons x r => simp
    · have hd : isDelim first = false := by simp [isDelim, h]
      simp [h, hd]

/-- C5 counterexample: the claim says frontmatter is returned only when the
first line is exactly `---`, but the code strips the line before comparing:
on a document whose first line is `" ---"` the code still returns
frontmatter. -/
theorem C5_counterexample_stripped_delimiter :
    (_split_frontmatter " ---\nx\n---\nb").1 = some ["x"] ∧
      (pySplitlines " ---\nx\n---\nb").head? = some " ---" ∧
      (" ---" : String) ≠ "---" := by
  refine ⟨by decide, by decide, by decide⟩

/-! ## Frontmatter value extraction: C7 -/

/-- Claim C7's reading of the quote handling: remove surrounding whitespace,
then a SINGLE layer of MATCHING quote characters. -/
def stripOneMatchingQuote (s : String) : String :=
  match s.data with
  | [] => s
  | c :: rest =>
    if (c = '"' ∨ c = '\'') ∧ rest.getLast? = some c then ⟨rest.dropLast⟩ else s

/-- Value extraction as claim C7 words it. -/
def extractValueClaimed (lines : List String) (key : String) : Option String :=
  (lines.find? (fun l => pyStartsWith (pyStrip l) (key ++ ":"))).map
    (fun l => stripOneMatchingQuote (pyStrip (afterFirstColon l)))

/-- C7 counterexample: on the line `title: ''v''` the code strips ALL
leading/trailing quote characters (double quotes first, then single
quotes), returning `v`, while the claim's single-matching-layer reading
yields `'v'`. -/
theorem C7_counterexample_all_quotes_stripped :
    _extract_frontmatter_value ["title: ''v''"] "title" = some "v" ∧
      extractValueClaimed ["title: ''v''"] "title" = some "'v'" ∧
      ("v" : String) ≠ "'v'" := by
  refine ⟨by decide, by decide, by decide⟩

/-- C7 (amended): `_extract_frontmatter_value` returns, for the FIRST line
whose trimmed form starts with `<key>:`, the remainder after the first
colon trimmed of surrounding whitespace, then of ALL leading and trailing
double-quote characters, then of ALL leading and trailing single-quote
characters; it returns `none` when no line matches. -/
theorem C7_extract_value_amended (lines : List String) (key : String) :
    _extract_frontmatter_value lines key =
      (lines.find? (fun l => pyStartsWith (pyStrip l) (key ++ ":"))).map
        (fun l => pyStripChar '\'' (pyStripChar '"' (pyStrip (afterFirstColon l)))) := by
  induction lines with
  | nil => rfl
  | cons line rest ih =>
    by_cases h : pyStartsWith (pyStrip line) (key ++ ":")
    · simp [_extract_frontmatter_value, List.find?_cons, h]
    · simp [_extract_frontmatter_value, List.find?_cons, h, ih]

/-! ## Error handling: C3, C8, C9 -/

/-- A story file is rejected by `_parse_story_file` exactly when scanning
ALL of its lines yields no title value or no status value. -/
def missingFields (content : String) : Prop :=
  _extract_frontmatter_value (pySplitlines content) "title" = none ∨
  _extract_frontmatter_value (pySplitlines content) "status" = none

instance (content : String) : Decidable (missingFields content) := by
  unfold missingFields
  infer_instance

theorem parse_error_iff (name content : String) :
    _parse_story_file name content =
      .error (.parseError ("Missing frontmatter fields in " ++ name)) ↔
    missingFields content := by
  unfold _parse_story_file missingFields
  rcases h1 : _extract_frontmatter_value (pySplitlines content) "title" with _ | t <;>
    rcases h2 : _extract_frontmatter_value (pySplitlines content) "status" with _ | st <;>
    simp [h1, h2]

theorem parse_ok_of_not_missing (name content : String) (h : ¬ missingFields content) :
    ∃ t st, _parse_story_file name content = .ok (pathStem name, t, st) := by
  unfold missingFields at h
  push_neg at h
  rcases h1 : _extract_frontmatter_value (pySplitlines content) "title" with _ | t
  · exact absurd h1 h.1
  rcases h2 : _extract_frontmatter_value (pySplitlines content) "status" with _ | st
  · exact absurd h2 h.2
  refine ⟨t, st, ?_⟩
  simp only [_parse_story_file]
  rw [h1, h2]

theorem parse_error_missing (name content : String) (e : SyncError)
    (h : _parse_story_file name content = .error e) :
    missingFields content ∧
      e = .parseError ("Missing frontmatter fields in " ++ name) := by
  by_cases hm : missingFields content
  · refine ⟨hm, ?_⟩
    have h2 := (parse_error_iff name content).mpr hm
    rw [h] at h2
    exact (Except.error.injEq _ _).mp h2
  · obtain ⟨t, st, hok⟩ := parse_ok_of_not_missing name content hm
    rw [hok] at h
    exact absurd h (by simp)

theorem parseStories_first_error (fs : List (String × String))
    (h : ∃ f ∈ fs, missingFields f.2) :
    ∃ bad ∈ fs, missingFields bad.2 ∧
      parseStories fs =
        .error (.parseError ("Missing frontmatter fields in " ++ bad.1)) := by
  induction fs with
  | nil => simp at h
  | cons f rest ih =>
    by_cases hf : missingFields f.2
    · refine ⟨f, by simp, hf, ?_⟩
      show parseStories (f :: rest) = _
      have he := (parse_error_iff f.1 f.2).mpr hf
      cases f with
      | mk name content =>
        simp only [parseStories, he]
    · have hrest : ∃ g ∈ rest, missingFields g.2 := by
        obtain ⟨g, hg, hgm⟩ := h
        rcases List.mem_cons.mp hg with rfl | hmem
        · exact absurd hgm hf
        · exact ⟨g, hmem, hgm⟩
      obtain ⟨bad, hmem, hbm, heq⟩ := ih hrest
      refine ⟨bad, by simp [hmem], hbm, ?_⟩
      obtain ⟨t, st, hok⟩ := parse_ok_of_not_missing f.1 f.2 hf
      show parseStories (f :: rest) = _
      cases f with
      | mk name content =>
        simp only [parseStories] at *
        rw [hok, heq]

theorem sync_stories_parse_error (dir : List (String × String)) (c : ClientState)
    (e : SyncError) (h : c.authOk = true)
    (hp : parseStories (mdFiles dir) = .error e) :
    sync_stories dir c = (.error e, c, [.validateAuth]) := by
  unfold sync_stories
  rw [h]
  simp only [Bool.true_eq_false, if_false, hp]

/-- C3: when `validateAuth` fails, both synchronizers propagate the failure
immediately: the only call issued is `validateAuth` itself — no `upsert`,
no `archive`, no listing, no file write — and the client state and the
local directory are unchanged. -/
theorem C3_auth_failure_short_circuits (dir fs : List (String × String))
    (c : ClientState) (details : List StoryDetail) (h : c.authOk = false) :
    sync_stories dir c = (.error .authFailed, c, [.validateAuth]) ∧
      pull_stories fs details false = (.error .authFailed, fs, [.validateAuth]) := by
  constructor
  · unfold sync_stories
    rw [h]
    simp
  · rfl

/-- Witness for C3 at a concrete directory, client and remote listing. -/
theorem C3_witness :
    (ClientState.mk false [⟨"story-1", "T", "todo"⟩]).authOk = false ∧
      sync_stories [("story-1.md", "---\ntitle: \"T\"\nstatus: \"todo\"\n---\n")]
          (ClientState.mk false [⟨"story-1", "T", "todo"⟩]) =
        (.error .authFailed, ClientState.mk false [⟨"story-1", "T", "todo"⟩],
          [.validateAuth]) ∧
      pull_stories [("story-9.md", "old")] [⟨"story-9", "Example", "In Progress"⟩]
          false =
        (.error .authFailed, [("story-9.md", "old")], [.validateAuth]) :=
  ⟨by decide,
    (C3_auth_failure_short_circuits _ [("story-9.md", "old")] _
      [⟨"story-9", "Example", "In Progress"⟩] (by decide)).1,
    (C3_auth_failure_short_circuits [("story-1.md", "---\ntitle: \"T\"\nstatus: \"todo\"\n---\n")]
      _ (ClientState.mk false [⟨"story-1", "T", "todo"⟩]) _ (by decide)).2⟩

/-- C9: `sync_stories` parses every local `.md` file before issuing any
`upsert_story`, `list_project_stories` or `archive_story` call, so a parse
failure in any local file aborts the run with only the `validateAuth` call
issued and the remote board unchanged. -/
theorem C9_parse_failure_leaves_remote_unchanged (dir : List (String × String))
    (c : ClientState) (h : c.authOk = true)
    (hbad : ∃ f ∈ mdFiles dir, ∃ e, _parse_story_file f.1 f.2 = .error e) :
    ∃ msg, sync_stories dir c =
      (.error (.parseError msg), c, [.validateAuth]) := by
  have hmiss : ∃ f ∈ mdFiles dir, missingFields f.2 := by
    obtain ⟨f, hmem, e, he⟩ := hbad
    exact ⟨f, hmem, (parse_error_missing f.1 f.2 e he).1⟩
  obtain ⟨bad, _, _, heq⟩ := parseStories_first_error (mdFiles dir) hmiss
  exact ⟨"Missing frontmatter fields in " ++ bad.1,
    sync_stories_parse_error dir c _ h heq⟩

/-- Witness for C9: a directory whose single story file has no frontmatter
fields at all, against a non-empty remote board. -/
theorem C9_witness :
    (ClientState.mk true [⟨"story-1", "T", "todo"⟩]).authOk = true ∧
      (("bad.md", "just a body") ∈ mdFiles [("bad.md", "just a body")] ∧
        ∃ e, _parse_story_file "bad.md" "just a body" = .error e) ∧
      ∃ msg, sync_stories [("bad.md", "just a body")]
          (ClientState.mk true [⟨"story-1", "T", "todo"⟩]) =
        (.error (.parseError msg), ClientState.mk true [⟨"story-1", "T", "todo"⟩],
          [.validateAuth]) :=
  ⟨by decide,
    ⟨by decide, .parseError ("Missing frontmatter fields in " ++ "bad.md"), by decide⟩,
    C9_parse_failure_leaves_remote_unchanged [("bad.md", "just a body")]
      (ClientState.mk true [⟨"story-1", "T", "todo"⟩]) (by decide)
      ⟨("bad.md", "just a body"), by decide,
        .parseError ("Missing frontmatter fields in " ++ "bad.md"), by decide⟩⟩

/-- C8 counterexample: a file whose FRONTMATTER block lacks a `title:` key
but whose body contains a `title:` line.  The claim demands that the run
fail, but `_parse_story_file` scans ALL lines of the file (not just the
frontmatter), finds the body line, and the run succeeds. -/
theorem C8_counterexample_title_in_body :
    (_extract_frontmatter_value
        (((_split_frontmatter "---\nstatus: \"s\"\n---\ntitle: hack").1).getD [])
        "title" = none) ∧
      (sync_stories [("a.md", "---\nstatus: \"s\"\n---\ntitle: hack")]
          (ClientState.mk true [])).1 = .ok ⟨1, 1⟩ := by
  refine ⟨by decide, by decide⟩

/-- C8 (amended): for every local `.md` file NONE of whose lines (anywhere
in the file, frontmatter or body) yields a title value or none of whose
lines yields a status value, `sync_stories` fails the whole run with a
parsing error whose message names the offending filename (the first such
file); the failure is fatal — no remote call beyond `validateAuth` is
issued and the client state is unchanged. -/
theorem C8_missing_fields_fatal (dir : List (String × String)) (c : ClientState)
    (name content : String) (h : c.authOk = true)
    (hmem : (name, content) ∈ mdFiles dir) (hmiss : missingFields content) :
    ∃ bad ∈ mdFiles dir, missingFields bad.2 ∧
      sync_stories dir c =
        (.error (.parseError ("Missing frontmatter fields in " ++ bad.1)), c,
          [.validateAuth]) := by
  obtain ⟨bad, hb, hbm, heq⟩ :=
    parseStories_first_error (mdFiles dir) ⟨(name, content), hmem, hmiss⟩
  exact ⟨bad, hb, hbm, sync_stories_parse_error dir c _ h heq⟩

/-- Witness for C8 at a concrete directory whose only file has a status
line but no title line. -/
theorem C8_witness :
    (ClientState.mk true []).authOk = true ∧
      ("story-3.md", "---\nstatus: \"todo\"\n---\n") ∈
        mdFiles [("story-3.md", "---\nstatus: \"todo\"\n---\n")] ∧
      missingFields "---\nstatus: \"todo\"\n---\n" ∧
      ∃ bad ∈ mdFiles [("story-3.md", "---\nstatus: \"todo\"\n---\n")],
        missingFields bad.2 ∧
        sync_stories [("story-3.md", "---\nstatus: \"todo\"\n---\n")]
            (ClientState.mk true []) =
          (.error (.parseError ("Missing frontmatter fields in " ++ bad.1)),
            ClientState.mk true [], [.validateAuth]) :=
  ⟨by decide, by decide, by decide,
    C8_missing_fields_fatal [("story-3.md", "---\nstatus: \"todo\"\n---\n")]
      (ClientState.mk true []) "story-3.md" "---\nstatus: \"todo\"\n---\n"
      (by decide) (by decide) (by decide)⟩

/-! ## Push reconciliation: C1 -/

/-- The sequence of `upsert_story` calls applied to the board. -/
def upsertFold (parsed : List (String × String × String)) (board : List BoardItem) :
    List BoardItem :=
  parsed.foldl (fun b r => upsertBoard b r.1 r.2.1 r.2.2) board

theorem boardIds_upsert (b : List BoardItem) (id t st : String) :
    boardIds (upsertBoard b id t st) =
      if id ∈ boardIds b then boardIds b else boardIds b ++ [id] := by
  induction b with
  | nil =>
    rw [if_neg (by simp [boardIds])]
    rfl
  | cons it rest ih =>
    have hcons : boardIds (it :: rest) = it.story_id :: boardIds rest := rfl
    by_cases h : it.story_id = id
    · have hl : boardIds (upsertBoard (it :: rest) id t st) =
          it.story_id :: boardIds rest := by
        show boardIds (if it.story_id = id then
          BoardItem.mk it.story_id it.title st :: rest else
          it :: upsertBoard rest id t st) = _
        rw [if_pos h]
        rfl
      rw [hl, hcons, if_pos (List.mem_cons.mpr (Or.inl h.symm))]
    · have hl : boardIds (upsertBoard (it :: rest) id t st) =
          it.story_id :: boardIds (upsertBoard rest id t st) := by
        show boardIds (if it.story_id = id then
          BoardItem.mk it.story_id it.title st :: rest else
          it :: upsertBoard rest id t st) = _
        rw [if_neg h]
        rfl
      rw [hl, ih, hcons]
      by_cases hmem : id ∈ boardIds rest
      · rw [if_pos hmem, if_pos (List.mem_cons.mpr (Or.inr hmem))]
      · rw [if_neg hmem, if_neg (by
          intro hc
          rcases List.mem_cons.mp hc with he | he
          · exact h he.symm
          · exact hmem he)]
        rfl

theorem filter_boardIds_upsertFold (parsed : List (String × String × String))
    (pushedAll : List String) (hsub : ∀ r ∈ parsed, r.1 ∈ pushedAll) :
    ∀ b : List BoardItem,
      (boardIds (upsertFold parsed b)).filter (fun i => ¬ i ∈ pushedAll) =
        (boardIds b).filter (fun i => ¬ i ∈ pushedAll) := by
  induction parsed with
  | nil => intro b; rfl
  | cons r rest ih =>
    intro b
    have hstep : (boardIds (upsertBoard b r.1 r.2.1 r.2.2)).filter
        (fun i => ¬ i ∈ pushedAll) = (boardIds b).filter (fun i => ¬ i ∈ pushedAll) := by
      rw [boardIds_upsert]
      by_cases hmem : r.1 ∈ boardIds b
      · rw [if_pos hmem]
      · have hr : r.1 ∈ pushedAll := hsub r (by simp)
        rw [if_neg hmem, List.filter_append]
        simp [hr]
    have ihs := ih (fun q hq => hsub q (by simp [hq])) (upsertBoard b r.1 r.2.1 r.2.2)
    show (boardIds (upsertFold rest (upsertBoard b r.1 r.2.1 r.2.2))).filter _ = _
    rw [ihs, hstep]



theorem sync_stories_ok_eq (dir : List (String × String)) (c : ClientState)
    (parsed : List (String × String × String)) (h : c.authOk = true)
    (hp : parseStories (mdFiles dir) = .ok parsed) :
    sync_stories dir c =
      (.ok ⟨parsed.length, parsed.length⟩,
        ⟨c.authOk, (archiveList (boardIds (upsertFold parsed c.board))
            (parsed.map (fun r => r.1))).foldl (fun b i => archiveBoard b i)
            (upsertFold parsed c.board)⟩,
        .validateAuth :: parsed.map (fun r => RemoteEv.upsert r.1 r.2.1 r.2.2) ++
          .listStories :: (archiveList (boardIds (upsertFold parsed c.board))
            (parsed.map (fun r => r.1))).map RemoteEv.archive) := by
  unfold sync_stories
  rw [h]
  simp only [Bool.true_eq_false, if_false, hp]
  rfl

theorem archiveList_upsertFold (parsed : List (String × String × String))
    (board : List BoardItem) :
    archiveList (boardIds (upsertFold parsed board)) (parsed.map (fun r => r.1)) =
      archiveList (boardIds board) (parsed.map (fun r => r.1)) := by
  unfold archiveList
  rw [filter_boardIds_upsertFold parsed (parsed.map (fun r => r.1))
    (fun r hr => List.mem_map.mpr ⟨r, hr, rfl⟩) board]

/-- C1: on a successful push over any directory and any remote board, the
archive calls are exactly the sorted, duplicate-free set difference between
the story ids listed on the board BEFORE the run and the story ids pushed
from the local directory; every parsed story is upserted, and no other
story id is archived. -/
theorem C1_push_archives_remote_minus_pushed (dir : List (String × String))
    (c : ClientState) (parsed : List (String × String × String))
    (h : c.authOk = true) (hp : parseStories (mdFiles dir) = .ok parsed) :
    (sync_stories dir c).1 = .ok ⟨parsed.length, parsed.length⟩ ∧
    (sync_stories dir c).2.2 =
      .validateAuth :: parsed.map (fun r => RemoteEv.upsert r.1 r.2.1 r.2.2) ++
        .listStories :: (archiveList (boardIds c.board)
          (parsed.map (fun r => r.1))).map RemoteEv.archive ∧
    List.Sorted (fun a b => a ≤ b)
      (archiveList (boardIds c.board) (parsed.map (fun r => r.1))) ∧
    (archiveList (boardIds c.board) (parsed.map (fun r => r.1))).Nodup ∧
    (∀ i, i ∈ archiveList (boardIds c.board) (parsed.map (fun r => r.1)) ↔
      (i ∈ boardIds c.board ∧ ¬ i ∈ parsed.map (fun r => r.1))) := by
  have hs := sync_stories_ok_eq dir c parsed h hp
  have hswap := archiveList_upsertFold parsed c.board
  refine ⟨by rw [hs], by rw [hs, hswap], ?_, ?_, ?_⟩
  · exact List.sorted_insertionSort (fun a b => a ≤ b) _
  · have hperm := List.perm_insertionSort (fun a b => a ≤ b)
      (((boardIds c.board).filter
        (fun i => ¬ i ∈ parsed.map (fun r => r.1))).dedup)
    exact hperm.nodup_iff.mpr (List.nodup_dedup _)
  · intro i
    unfold archiveList
    rw [List.mem_insertionSort, List.mem_dedup, List.mem_filter]
    simp

/-- Witness for C1, the spec's archive-on-removal example: remote board
lists `story-1` and `story-2`, the local directory contains only `story-2`;
the push upserts exactly `story-2` and archives exactly `story-1`. -/
theorem C1_witness :
    (ClientState.mk true [⟨"story-1", "T1", "todo"⟩, ⟨"story-2", "T2", "todo"⟩]).authOk
        = true ∧
      parseStories (mdFiles
          [("story-2.md", "---\ntitle: \"Story Two\"\nstatus: \"todo\"\n---\n")]) =
        .ok [("story-2", "Story Two", "todo")] ∧
      (sync_stories [("story-2.md", "---\ntitle: \"Story Two\"\nstatus: \"todo\"\n---\n")]
          (ClientState.mk true [⟨"story-1", "T1", "todo"⟩, ⟨"story-2", "T2", "todo"⟩])).2.2 =
        .validateAuth ::
          ([("story-2", "Story Two", "todo")] :
            List (String × String × String)).map (fun r => RemoteEv.upsert r.1 r.2.1 r.2.2) ++
          .listStories ::
            (archiveList
              (boardIds [⟨"story-1", "T1", "todo"⟩, ⟨"story-2", "T2", "todo"⟩])
              (([("story-2", "Story Two", "todo")] :
                List (String × String × String)).map (fun r => r.1))).map RemoteEv.archive :=
  ⟨by decide, by decide,
    (C1_push_archives_remote_minus_pushed
      [("story-2.md", "---\ntitle: \"Story Two\"\nstatus: \"todo\"\n---\n")]
      (ClientState.mk true [⟨"story-1", "T1", "todo"⟩, ⟨"story-2", "T2", "todo"⟩])
      [("story-2", "Story Two", "todo")] (by decide) (by decide)).2.1⟩

/-! ## Render structure: C6 -/

theorem filterCarried_eq_filter (ls : List String) :
    filterCarried ls = ls.filter (fun l => !(ownedLine l)) := by
  induction ls with
  | nil => rfl
  | cons line rest ih =>
    by_cases h : ownedLine line = true
    · simp [filterCarried, h, List.filter_cons, ih]
    · simp only [Bool.not_eq_true] at h
      simp [filterCarried, h, List.filter_cons, ih]

theorem pyRstrip_idem (s : String) : pyRstrip (pyRstrip s) = pyRstrip s := by
  unfold pyRstrip
  exact congrArg String.mk (List.rdropWhile_idempotent pyIsSpace s.data)

theorem pyRstrip_append_newline (s : String) :
    pyRstrip (s ++ "\n") = pyRstrip s := by
  unfold pyRstrip
  apply congrArg String.mk
  rw [String.data_append]
  exact List.rdropWhile_concat_pos _ _ '\n' (by decide)

/-- C6: `render` prepends fresh `title:`/`status:` lines and keeps exactly
the carried-forward lines whose trimmed, lower-cased form does not start
with `title:` or `status:`, in order; an empty body renders identically to
the synthesized body (a level-1 heading with the title followed by a blank
line); and the output equals a trailing-whitespace-free string followed by
exactly one newline. -/
theorem C6_render_structure (title status : String) (existing : Option (List String))
    (body : List String) :
    _build_frontmatter title status existing =
      titleLine title :: statusLine status ::
        (existing.getD []).filter (fun l => !(ownedLine l)) ∧
    renderParts title status existing [] =
      renderParts title status existing ["# " ++ title, ""] ∧
    (∃ u, renderParts title status existing body = u ++ "\n" ∧
      pyRstrip (u ++ "\n") = u) := by
  refine ⟨?_, ?_, ?_⟩
  · cases existing with
    | none => rfl
    | some ls =>
      show titleLine title :: statusLine status :: filterCarried ls = _
      rw [filterCarried_eq_filter]
      rfl
  · show renderParts title status existing [] = _
    unfold renderParts
    rw [if_pos rfl, if_neg (by simp)]
  · refine ⟨pyRstrip (joinLines (["---"] ++ _build_frontmatter title status existing ++
      ["---", ""] ++ (if body = [] then ["# " ++ title, ""] else body))), rfl, ?_⟩
    rw [pyRstrip_append_newline, pyRstrip_idem]

/-! ## String-level append and rstrip lemmas (towards C2) -/

theorem string_data_ext (a b : String) (h : a.data = b.data) : a = b := by
  cases a with
  | mk la =>
    cases b with
    | mk lb =>
      cases h
      rfl

theorem string_append_assoc (a b c : String) : (a ++ b) ++ c = a ++ (b ++ c) := by
  apply string_data_ext
  simp [String.data_append, List.append_assoc]

theorem rdropWhile_cons_or (p : Char → Bool) (c : Char) (y : List Char)
    (h : p c = false ∨ List.rdropWhile p y ≠ []) :
    List.rdropWhile p (c :: y) = c :: List.rdropWhile p y := by
  unfold List.rdropWhile
  rw [List.reverse_cons, List.dropWhile_append]
  by_cases hy : List.dropWhile p y.reverse = []
  · rcases h with h | h
    · simp [hy, h]
    · exact absurd (by unfold List.rdropWhile; rw [hy]; rfl) h
  · simp [hy]

theorem rdropWhile_append_of_ne_nil (p : Char → Bool) (x y : List Char)
    (h : List.rdropWhile p y ≠ []) :
    List.rdropWhile p (x ++ y) = x ++ List.rdropWhile p y := by
  induction x with
  | nil => simp
  | cons d x' ih =>
    have hx : List.rdropWhile p (x' ++ y) = x' ++ List.rdropWhile p y := ih
    have hne : List.rdropWhile p (x' ++ y) ≠ [] := by
      rw [hx]
      intro hc
      exact h (List.append_eq_nil.mp hc).2
    rw [List.cons_append, rdropWhile_cons_or p d (x' ++ y) (Or.inr hne), hx]
    rfl

theorem pyRstrip_append_of_ne_empty (u v : String) (h : pyRstrip v ≠ "") :
    pyRstrip (u ++ v) = u ++ pyRstrip v := by
  apply string_data_ext
  show List.rdropWhile pyIsSpace (u.data ++ v.data) =
    u.data ++ List.rdropWhile pyIsSpace v.data
  have hd : List.rdropWhile pyIsSpace v.data ≠ [] := by
    intro hc
    exact h (string_data_ext _ _ hc)
  rw [rdropWhile_append_of_ne_nil pyIsSpace u.data v.data hd]

theorem pyRstrip_hash (u v : String) :
    pyRstrip (u ++ "#" ++ v) = u ++ "#" ++ pyRstrip v := by
  apply string_data_ext
  show List.rdropWhile pyIsSpace ((u.data ++ ['#']) ++ v.data) =
    (u.data ++ ['#']) ++ List.rdropWhile pyIsSpace v.data
  rw [List.append_assoc, List.append_assoc]
  show List.rdropWhile pyIsSpace (u.data ++ '#' :: v.data) =
    u.data ++ '#' :: List.rdropWhile pyIsSpace v.data
  have h1 : List.rdropWhile pyIsSpace ('#' :: v.data) =
      '#' :: List.rdropWhile pyIsSpace v.data :=
    rdropWhile_cons_or pyIsSpace '#' v.data (Or.inl (by decide))
  rw [rdropWhile_append_of_ne_nil pyIsSpace u.data ('#' :: v.data) (by rw [h1]; simp),
    h1]

/-! ## Splitlines of newline-joined documents (towards C2) -/

theorem splitlinesAux_not_break (c : Char) (rest acc : List Char) (b : Bool)
    (h : isLineBreak c = false) :
    splitlinesAux (c :: rest) acc b = splitlinesAux rest (c :: acc) false := by
  have h1 : c ≠ '\n' := by
    intro he; rw [he] at h; exact absurd h (by decide)
  simp only [splitlinesAux, h, h1, and_false, if_false, Bool.false_eq_true]

theorem splitlinesAux_newline (rest acc : List Char) :
    splitlinesAux ('\n' :: rest) acc false = acc.reverse :: splitlinesAux rest [] false := by
  simp [splitlinesAux, show isLineBreak '\n' = true from by decide,
    show (decide (('\n' : Char) = '\r')) = false from by decide]

theorem splitlinesAux_line (l : List Char) (h : ∀ c ∈ l, isLineBreak c = false) :
    ∀ (rest acc : List Char), splitlinesAux (l ++ '\n' :: rest) acc false =
      (acc.reverse ++ l) :: splitlinesAux rest [] false := by
  induction l with
  | nil =>
    intro rest acc
    rw [List.nil_append, splitlinesAux_newline, List.append_nil]
  | cons c l' ih =>
    intro rest acc
    have hc := h c (by simp)
    rw [List.cons_append, splitlinesAux_not_break c _ acc _ hc,
      ih (fun d hd => h d (by simp [hd])) rest (c :: acc)]
    simp

theorem splitlinesAux_end (l : List Char) (h : ∀ c ∈ l, isLineBreak c = false) :
    ∀ acc, splitlinesAux l acc false =
      if acc.reverse ++ l = [] then [] else [acc.reverse ++ l] := by
  induction l with
  | nil =>
    intro acc
    show (if acc = [] then [] else [acc.reverse]) = _
    cases acc with
    | nil => simp
    | cons a t => simp
  | cons c l' ih =>
    intro acc
    have hc := h c (by simp)
    rw [splitlinesAux_not_break c _ acc _ hc, ih (fun d hd => h d (by simp [hd])) (c :: acc)]
    rw [if_neg (by simp), if_neg (by simp)]
    simp

theorem pySplitlines_join (L : List String) (hne : L ≠ [])
    (h : ∀ l ∈ L, ∀ c ∈ l.data, isLineBreak c = false) :
    pySplitlines (joinLines L ++ "\n") = L := by
  induction L with
  | nil => exact absurd rfl hne
  | cons l rest ih =>
    cases rest with
    | nil =>
      show ((splitlinesAux (l ++ "\n" : String).data [] false).map String.mk) = [l]
      have hd : (l ++ "\n" : String).data = l.data ++ '\n' :: [] := by
        rw [String.data_append]
      rw [hd, splitlinesAux_line l.data (h l (by simp)) [] []]
      rfl
    | cons l2 rest2 =>
      show ((splitlinesAux ((l ++ "\n" ++ joinLines (l2 :: rest2)) ++ "\n" : String).data
        [] false).map String.mk) = l :: l2 :: rest2
      have hd : ((l ++ "\n" ++ joinLines (l2 :: rest2)) ++ "\n" : String).data =
          l.data ++ '\n' :: ((joinLines (l2 :: rest2) ++ "\n" : String).data) := by
        simp [String.data_append]
      rw [hd, splitlinesAux_line l.data (h l (by simp)) _ []]
      have hih := ih (by simp) (fun q hq => h q (by simp [hq]))
      show String.mk ([].reverse ++ l.data) ::
        (splitlinesAux ((joinLines (l2 :: rest2) ++ "\n" : String).data) [] false).map
          String.mk = _
      rw [show ((joinLines (l2 :: rest2) ++ "\n" : String).data) =
        ((joinLines (l2 :: rest2) ++ "\n" : String).data) from rfl]
      have : (splitlinesAux ((joinLines (l2 :: rest2) ++ "\n" : String).data) [] false).map
          String.mk = l2 :: rest2 := hih
      rw [this]
      rfl

/-! ## Facts about the fresh frontmatter lines (towards C2) -/

theorem titleLine_data (t : String) :
    (titleLine t).data =
      't' :: 'i' :: 't' :: 'l' :: 'e' :: ':' :: ' ' :: '"' :: (t.data ++ ['"']) := rfl

theorem statusLine_data (st : String) :
    (statusLine st).data =
      's' :: 't' :: 'a' :: 't' :: 'u' :: 's' :: ':' :: ' ' :: '"' :: (st.data ++ ['"']) := rfl

theorem stripL_wrap (a : Char) (mid : List Char) (z : Char)
    (ha : pyIsSpace a = false) (hz : pyIsSpace z = false) :
    pyStripL (a :: (mid ++ [z])) = a :: (mid ++ [z]) := by
  unfold pyStripL
  rw [List.dropWhile_cons_of_neg (by simp [ha])]
  rw [show a :: (mid ++ [z]) = (a :: mid) ++ [z] from by simp]
  rw [List.rdropWhile_concat_neg pyIsSpace (a :: mid) z (by simp [hz])]

theorem strip_titleLine (t : String) : pyStrip (titleLine t) = titleLine t := by
  apply string_data_ext
  show pyStripL (titleLine t).data = (titleLine t).data
  rw [titleLine_data,
    show 'i' :: 't' :: 'l' :: 'e' :: ':' :: ' ' :: '"' :: (t.data ++ ['"']) =
      ('i' :: 't' :: 'l' :: 'e' :: ':' :: ' ' :: '"' :: t.data) ++ ['"'] from by simp]
  exact stripL_wrap 't' _ '"' (by decide) (by decide)

theorem strip_statusLine (st : String) : pyStrip (statusLine st) = statusLine st := by
  apply string_data_ext
  show pyStripL (statusLine st).data = (statusLine st).data
  rw [statusLine_data,
    show 't' :: 'a' :: 't' :: 'u' :: 's' :: ':' :: ' ' :: '"' :: (st.data ++ ['"']) =
      ('t' :: 'a' :: 't' :: 'u' :: 's' :: ':' :: ' ' :: '"' :: st.data) ++ ['"'] from by simp]
  exact stripL_wrap 's' _ '"' (by decide) (by decide)

theorem ownedLine_titleLine (t : String) : ownedLine (titleLine t) = true := by
  unfold ownedLine
  rw [strip_titleLine]
  apply Bool.or_eq_true_iff.mpr
  left
  show List.isPrefixOf ("title:" : String).data (pyLower (titleLine t)).data = true
  show List.isPrefixOf ("title:" : String).data ((titleLine t).data.map Char.toLower) = true
  rw [titleLine_data]
  simp only [List.map_cons,
    show Char.toLower 't' = 't' from by decide, show Char.toLower 'i' = 'i' from by decide,
    show Char.toLower 'l' = 'l' from by decide, show Char.toLower 'e' = 'e' from by decide,
    show Char.toLower ':' = ':' from by decide]
  show List.isPrefixOf ['t', 'i', 't', 'l', 'e', ':']
    ('t' :: 'i' :: 't' :: 'l' :: 'e' :: ':' :: _) = true
  simp [List.isPrefixOf]

theorem ownedLine_statusLine (st : String) : ownedLine (statusLine st) = true := by
  unfold ownedLine
  rw [strip_statusLine]
  apply Bool.or_eq_true_iff.mpr
  right
  show List.isPrefixOf ("status:" : String).data ((statusLine st).data.map Char.toLower) = true
  rw [statusLine_data]
  simp only [List.map_cons,
    show Char.toLower 's' = 's' from by decide, show Char.toLower 't' = 't' from by decide,
    show Char.toLower 'a' = 'a' from by decide, show Char.toLower 'u' = 'u' from by decide,
    show Char.toLower ':' = ':' from by decide]
  show List.isPrefixOf ['s', 't', 'a', 't', 'u', 's', ':']
    ('s' :: 't' :: 'a' :: 't' :: 'u' :: 's' :: ':' :: _) = true
  simp [List.isPrefixOf]

theorem titleLine_ne_delim (t : String) : titleLine t ≠ "---" := by
  intro he
  have h2 := congrArg String.data he
  rw [titleLine_data] at h2
  simp at h2

theorem statusLine_ne_delim (st : String) : statusLine st ≠ "---" := by
  intro he
  have h2 := congrArg String.data he
  rw [statusLine_data] at h2
  simp at h2

theorem startsWith_titleLine_title (t : String) :
    pyStartsWith (pyStrip (titleLine t)) ("title" ++ ":") = true := by
  rw [strip_titleLine]
  rfl

theorem startsWith_titleLine_status (t : String) :
    pyStartsWith (pyStrip (titleLine t)) ("status" ++ ":") = false := by
  rw [strip_titleLine]
  rfl

theorem startsWith_statusLine_status (st : String) :
    pyStartsWith (pyStrip (statusLine st)) ("status" ++ ":") = true := by
  rw [strip_statusLine]
  rfl

/-! ## Quote handling of extractValue on fresh lines (towards C2) -/

theorem stripCharL_eq_self (q : Char) (l : List Char) (h1 : l.head? ≠ some q)
    (h2 : l.getLast? ≠ some q) :
    List.rdropWhile (fun c => c = q) (List.dropWhile (fun c => c = q) l) = l := by
  cases l with
  | nil => rfl
  | cons a t =>
    have ha : a ≠ q := by
      intro he
      exact h1 (by rw [he]; rfl)
    rw [List.dropWhile_cons_of_neg (by simp [ha])]
    rw [List.rdropWhile_eq_self_iff]
    intro hl
    have hg : (a :: t).getLast hl ≠ q := by
      intro he
      exact h2 (by rw [List.getLast?_eq_getLast _ hl, he])
    simp [hg]

theorem pyStripChar_eq_self (q : Char) (t : String) (h1 : t.data.head? ≠ some q)
    (h2 : t.data.getLast? ≠ some q) : pyStripChar q t = t :=
  string_data_ext _ _ (stripCharL_eq_self q t.data h1 h2)

theorem stripChar_quote_wrapped (t : String) (h1 : t.data.head? ≠ some '"')
    (h3 : t.data.getLast? ≠ some '"') :
    pyStripChar '"' ⟨'"' :: (t.data ++ ['"'])⟩ = t := by
  apply string_data_ext
  show List.rdropWhile (fun c => c = '"')
    (List.dropWhile (fun c => c = '"') ('"' :: (t.data ++ ['"']))) = t.data
  rw [List.dropWhile_cons_of_pos (by simp)]
  cases ht : t.data with
  | nil => simp
  | cons a t2 =>
    have ha : a ≠ '"' := by
      intro he
      rw [ht] at h1
      exact h1 (by rw [he]; rfl)
    rw [show (a :: t2) ++ ['"'] = a :: (t2 ++ ['"']) from rfl]
    rw [List.dropWhile_cons_of_neg (by simp [ha])]
    rw [show a :: (t2 ++ ['"']) = (a :: t2) ++ ['"'] from rfl]
    rw [List.rdropWhile_concat_pos (fun c => c = '"') (a :: t2) '"' (by simp)]
    rw [List.rdropWhile_eq_self_iff]
    intro hl
    have hg : (a :: t2).getLast hl ≠ '"' := by
      intro he
      rw [ht] at h3
      exact h3 (by rw [List.getLast?_eq_getLast _ hl, he])
    simp [hg]

theorem strip_sp_quote (t : String) :
    pyStrip ⟨' ' :: '"' :: (t.data ++ ['"'])⟩ = ⟨'"' :: (t.data ++ ['"'])⟩ := by
  apply congrArg String.mk
  show pyStripL (' ' :: '"' :: (t.data ++ ['"'])) = '"' :: (t.data ++ ['"'])
  unfold pyStripL
  rw [List.dropWhile_cons_of_pos (by decide), List.dropWhile_cons_of_neg (by decide)]
  rw [show '"' :: (t.data ++ ['"']) = ('"' :: t.data) ++ ['"'] from rfl]
  exact List.rdropWhile_concat_neg pyIsSpace ('"' :: t.data) '"' (by decide)

theorem extract_value_titleLine (t : String) (h1 : t.data.head? ≠ some '"')
    (h2 : t.data.head? ≠ some '\'') (h3 : t.data.getLast? ≠ some '"')
    (h4 : t.data.getLast? ≠ some '\'') :
    pyStripChar '\'' (pyStripChar '"' (pyStrip (afterFirstColon (titleLine t)))) = t := by
  have ha : afterFirstColon (titleLine t) = ⟨' ' :: '"' :: (t.data ++ ['"'])⟩ := rfl
  rw [ha, strip_sp_quote, stripChar_quote_wrapped t h1 h3]
  exact pyStripChar_eq_self '\'' t h2 h4

theorem extract_value_statusLine (st : String) (h1 : st.data.head? ≠ some '"')
    (h2 : st.data.head? ≠ some '\'') (h3 : st.data.getLast? ≠ some '"')
    (h4 : st.data.getLast? ≠ some '\'') :
    pyStripChar '\'' (pyStripChar '"' (pyStrip (afterFirstColon (statusLine st)))) = st := by
  have ha : afterFirstColon (statusLine st) = ⟨' ' :: '"' :: (st.data ++ ['"'])⟩ := rfl
  rw [ha, strip_sp_quote, stripChar_quote_wrapped st h1 h3]
  exact pyStripChar_eq_self '\'' st h2 h4

/-! ## Shapes of the rendered documents (towards C2) -/

theorem string_append_empty (u : String) : u ++ "" = u := by
  apply string_data_ext
  rw [String.data_append]
  show u.data ++ [] = u.data
  rw [List.append_nil]

theorem render_none_shape (title status : String) :
    renderParts title status none [] =
      joinLines ["---", titleLine title, statusLine status, "---", "",
        "#" ++ pyRstrip (" " ++ title)] ++ "\n" := by
  show pyRstrip (joinLines (["---"] ++ [titleLine title, statusLine status] ++
    ["---", ""] ++ if ([] : List String) = [] then ["# " ++ title, ""] else [])) ++ "\n" = _
  rw [if_pos rfl]
  have hJ : joinLines (["---"] ++ [titleLine title, statusLine status] ++ ["---", ""] ++
      ["# " ++ title, ""]) =
      ("---" ++ "\n" ++ titleLine title ++ "\n" ++ statusLine status ++ "\n" ++ "---" ++
        "\n" ++ "" ++ "\n") ++ "#" ++ (" " ++ title ++ "\n") := by
    apply string_data_ext
    simp [joinLines, String.data_append]
  rw [hJ, pyRstrip_hash, pyRstrip_append_newline]
  apply string_data_ext
  simp [joinLines, String.data_append]

theorem render_carried_shape (title status extra lastl : String)
    (hextra : ownedLine extra = false) :
    renderParts title status (some [titleLine title, statusLine status, extra])
        ["", "#" ++ lastl] =
      pyRstrip (("---" ++ "\n" ++ titleLine title ++ "\n" ++ statusLine status ++ "\n" ++
        extra ++ "\n" ++ "---" ++ "\n" ++ "" ++ "\n" ++ "" ++ "\n") ++ "#" ++ lastl) ++
        "\n" := by
  show pyRstrip (joinLines (["---"] ++
    _build_frontmatter title status (some [titleLine title, statusLine status, extra]) ++
    ["---", ""] ++ if ["", "#" ++ lastl] = ([] : List String) then ["# " ++ title, ""]
      else ["", "#" ++ lastl])) ++ "\n" = _
  rw [if_neg (by simp)]
  have hb : _build_frontmatter title status
      (some [titleLine title, statusLine status, extra]) =
      [titleLine title, statusLine status, extra] := by
    show titleLine title :: statusLine status ::
      filterCarried [titleLine title, statusLine status, extra] = _
    simp [filterCarried, ownedLine_titleLine, ownedLine_statusLine, hextra]
  rw [hb]
  have hJ : joinLines (["---"] ++ [titleLine title, statusLine status, extra] ++
      ["---", ""] ++ ["", "#" ++ lastl]) =
      ("---" ++ "\n" ++ titleLine title ++ "\n" ++ statusLine status ++ "\n" ++ extra ++
        "\n" ++ "---" ++ "\n" ++ "" ++ "\n" ++ "" ++ "\n") ++ "#" ++ lastl := by
    apply string_data_ext
    simp [joinLines, String.data_append]
  rw [hJ]

theorem render_carried_rstrip (title status extra : String)
    (hextra : ownedLine extra = false) :
    renderParts title status (some [titleLine title, statusLine status, extra])
        ["", "#" ++ pyRstrip (" " ++ title)] =
      joinLines ["---", titleLine title, statusLine status, extra, "---", "", "",
        "#" ++ pyRstrip (" " ++ title)] ++ "\n" := by
  rw [render_carried_shape title status extra (pyRstrip (" " ++ title)) hextra,
    pyRstrip_hash, pyRstrip_idem]
  apply string_data_ext
  simp [joinLines, String.data_append]

/-! ## Line-break freedom of rendered lines (towards C2) -/

theorem noBreak_titleLine (t : String) (h : ∀ c ∈ t.data, isLineBreak c = false) :
    ∀ c ∈ (titleLine t).data, isLineBreak c = false := by
  intro c hc
  rw [titleLine_data] at hc
  simp only [List.mem_cons, List.mem_append, List.mem_singleton, List.not_mem_nil,
    or_false] at hc
  rcases hc with rfl | rfl | rfl | rfl | rfl | rfl | rfl | rfl | hc2 | rfl <;>
    first | decide | exact h c hc2

theorem noBreak_statusLine (st : String) (h : ∀ c ∈ st.data, isLineBreak c = false) :
    ∀ c ∈ (statusLine st).data, isLineBreak c = false := by
  intro c hc
  rw [statusLine_data] at hc
  simp only [List.mem_cons, List.mem_append, List.mem_singleton, List.not_mem_nil,
    or_false] at hc
  rcases hc with rfl | rfl | rfl | rfl | rfl | rfl | rfl | rfl | rfl | hc2 | rfl <;>
    first | decide | exact h c hc2

theorem noBreak_hash_rstrip (title : String)
    (h : ∀ c ∈ title.data, isLineBreak c = false) :
    ∀ c ∈ ("#" ++ pyRstrip (" " ++ title)).data, isLineBreak c = false := by
  intro c hc
  rw [String.data_append] at hc
  rcases List.mem_append.mp hc with h1 | h2
  · rw [List.mem_singleton] at h1
    subst h1
    decide
  · have hpre := List.rdropWhile_prefix pyIsSpace (" " ++ title).data
    have hmem : c ∈ (" " ++ title).data := hpre.subset h2
    rw [String.data_append] at hmem
    rcases List.mem_append.mp hmem with h3 | h4
    · rw [List.mem_singleton] at h3
      subst h3
      decide
    · exact h c h4

/-- Parsing the freshly rendered document recovers the two fresh
frontmatter lines and the synthesized body. -/
theorem split_render_none (title status : String)
    (ht : ∀ c ∈ title.data, isLineBreak c = false)
    (hs : ∀ c ∈ status.data, isLineBreak c = false) :
    _split_frontmatter (renderParts title status none []) =
      (some [titleLine title, statusLine status],
        ["", "#" ++ pyRstrip (" " ++ title)]) := by
  rw [render_none_shape]
  have hsplit : pySplitlines (joinLines ["---", titleLine title, statusLine status, "---",
      "", "#" ++ pyRstrip (" " ++ title)] ++ "\n") = ["---", titleLine title,
      statusLine status, "---", "", "#" ++ pyRstrip (" " ++ title)] := by
    apply pySplitlines_join _ (by simp)
    intro l hl
    simp only [List.mem_cons, List.not_mem_nil, or_false] at hl
    rcases hl with rfl | rfl | rfl | rfl | rfl | rfl
    · decide
    · exact noBreak_titleLine title ht
    · exact noBreak_statusLine status hs
    · decide
    · decide
    · exact noBreak_hash_rstrip title ht
  have h1 : fmScan [titleLine title, statusLine status, "---", "",
      "#" ++ pyRstrip (" " ++ title)] [] = some ([titleLine title, statusLine status],
      ["", "#" ++ pyRstrip (" " ++ title)]) := by
    simp only [fmScan, strip_titleLine, strip_statusLine]
    rw [if_neg (titleLine_ne_delim title), if_neg (statusLine_ne_delim status),
      if_pos (by decide)]
    rfl
  simp only [_split_frontmatter, hsplit]
  rw [if_neg (by decide), h1]

/-! ## Value extraction over the re-rendered document (towards C2) -/

theorem extract_title_doc (title status extra lastl : String)
    (h1 : title.data.head? ≠ some '"') (h2 : title.data.head? ≠ some '\'')
    (h3 : title.data.getLast? ≠ some '"') (h4 : title.data.getLast? ≠ some '\'') :
    _extract_frontmatter_value ["---", titleLine title, statusLine status, extra, "---",
      "", "", lastl] "title" = some title := by
  simp only [_extract_frontmatter_value,
    show pyStartsWith (pyStrip "---") ("title" ++ ":") = false from by decide,
    startsWith_titleLine_title, Bool.false_eq_true, if_false, if_true]
  rw [extract_value_titleLine title h1 h2 h3 h4]

theorem extract_status_doc (title status extra lastl : String)
    (h1 : status.data.head? ≠ some '"') (h2 : status.data.head? ≠ some '\'')
    (h3 : status.data.getLast? ≠ some '"') (h4 : status.data.getLast? ≠ some '\'') :
    _extract_frontmatter_value ["---", titleLine title, statusLine status, extra, "---",
      "", "", lastl] "status" = some status := by
  simp only [_extract_frontmatter_value,
    show pyStartsWith (pyStrip "---") ("status" ++ ":") = false from by decide,
    startsWith_titleLine_status, startsWith_statusLine_status, Bool.false_eq_true,
    if_false, if_true]
  rw [extract_value_statusLine status h1 h2 h3 h4]

/-- The carried-forward frontmatter keeps exactly the non-owned lines. -/
theorem build_frontmatter_mem_iff (title status : String) (ls : List String)
    (l : String) (hl : ownedLine l = false) :
    l ∈ _build_frontmatter title status (some ls) ↔ l ∈ ls := by
  show l ∈ titleLine title :: statusLine status :: filterCarried ls ↔ _
  rw [filterCarried_eq_filter]
  constructor
  · intro hm
    rcases List.mem_cons.mp hm with rfl | hm2
    · rw [ownedLine_titleLine] at hl
      exact absurd hl (by simp)
    · rcases List.mem_cons.mp hm2 with rfl | hm3
      · rw [ownedLine_statusLine] at hl
        exact absurd hl (by simp)
      · exact (List.mem_filter.mp hm3).1
  · intro hm
    exact List.mem_cons.mpr (Or.inr (List.mem_cons.mpr (Or.inr
      (List.mem_filter.mpr ⟨hm, by simp [hl]⟩))))

set_option maxHeartbeats 1000000 in
/-- C2 (amended): rendering a fresh story document, parsing it back,
injecting an extra frontmatter line into the carried-forward frontmatter
and rendering again lets `extractValue` recover the title and status
exactly and keeps the extra line verbatim — provided the title and status
contain no line-break characters and do not begin or end with a quote
character (`"` or `\'`), and the extra line contains no line break and is
not itself an owned `title:`/`status:` line; moreover the codec never drops
a non-owned frontmatter line. -/
theorem C2_roundtrip_amended (title status extra : String)
    (htb : ∀ c ∈ title.data, isLineBreak c = false)
    (hsb : ∀ c ∈ status.data, isLineBreak c = false)
    (heb : ∀ c ∈ extra.data, isLineBreak c = false)
    (ht1 : title.data.head? ≠ some '"') (ht2 : title.data.head? ≠ some '\'')
    (ht3 : title.data.getLast? ≠ some '"') (ht4 : title.data.getLast? ≠ some '\'')
    (hs1 : status.data.head? ≠ some '"') (hs2 : status.data.head? ≠ some '\'')
    (hs3 : status.data.getLast? ≠ some '"') (hs4 : status.data.getLast? ≠ some '\'')
    (heo : ownedLine extra = false) :
    (_extract_frontmatter_value (pySplitlines (renderParts title status
        (some (((_split_frontmatter (_render_story_content title status none)).1.getD [])
          ++ [extra]))
        (_split_frontmatter (_render_story_content title status none)).2)) "title" =
      some title) ∧
    (_extract_frontmatter_value (pySplitlines (renderParts title status
        (some (((_split_frontmatter (_render_story_content title status none)).1.getD [])
          ++ [extra]))
        (_split_frontmatter (_render_story_content title status none)).2)) "status" =
      some status) ∧
    (extra ∈ pySplitlines (renderParts title status
        (some (((_split_frontmatter (_render_story_content title status none)).1.getD [])
          ++ [extra]))
        (_split_frontmatter (_render_story_content title status none)).2)) ∧
    (∀ ls l, ownedLine l = false →
      (l ∈ _build_frontmatter title status (some ls) ↔ l ∈ ls)) := by
  have hd1 : _render_story_content title status none = renderParts title status none [] :=
    rfl
  have hp := split_render_none title status htb hsb
  rw [hd1, hp]
  have hgd : (((some [titleLine title, statusLine status]).getD ([] : List String))
      ++ [extra]) = [titleLine title, statusLine status, extra] := rfl
  rw [hgd, render_carried_rstrip title status extra heo]
  have hsplit2 : pySplitlines (joinLines ["---", titleLine title, statusLine status,
      extra, "---", "", "", "#" ++ pyRstrip (" " ++ title)] ++ "\n") =
      ["---", titleLine title, statusLine status, extra, "---", "", "",
        "#" ++ pyRstrip (" " ++ title)] := by
    apply pySplitlines_join _ (by simp)
    intro l hl
    simp only [List.mem_cons, List.not_mem_nil, or_false] at hl
    rcases hl with rfl | rfl | rfl | rfl | rfl | rfl | rfl | rfl
    · decide
    · exact noBreak_titleLine title htb
    · exact noBreak_statusLine status hsb
    · exact heb
    · decide
    · decide
    · decide
    · exact noBreak_hash_rstrip title htb
  rw [hsplit2]
  refine ⟨extract_title_doc title status extra ("#" ++ pyRstrip (" " ++ title))
      ht1 ht2 ht3 ht4,
    extract_status_doc title status extra ("#" ++ pyRstrip (" " ++ title))
      hs1 hs2 hs3 hs4,
    List.mem_cons.mpr (Or.inr (List.mem_cons.mpr (Or.inr (List.mem_cons.mpr (Or.inr
      (List.mem_cons.mpr (Or.inl rfl))))))),
    fun ls l hl => build_frontmatter_mem_iff title status ls l hl⟩

/-- Witness for C2 at `title = "Story"`, `status = "todo"`, extra line
`owner: me`. -/
theorem C2_witness :
    ((∀ c ∈ ("Story" : String).data, isLineBreak c = false) ∧
      (∀ c ∈ ("owner: me" : String).data, isLineBreak c = false) ∧
      ownedLine "owner: me" = false) ∧
    (_extract_frontmatter_value (pySplitlines (renderParts "Story" "todo"
        (some (((_split_frontmatter (_render_story_content "Story" "todo" none)).1.getD [])
          ++ ["owner: me"]))
        (_split_frontmatter (_render_story_content "Story" "todo" none)).2)) "title" =
      some "Story") ∧
    (_extract_frontmatter_value (pySplitlines (renderParts "Story" "todo"
        (some (((_split_frontmatter (_render_story_content "Story" "todo" none)).1.getD [])
          ++ ["owner: me"]))
        (_split_frontmatter (_render_story_content "Story" "todo" none)).2)) "status" =
      some "todo") ∧
    ("owner: me" ∈ pySplitlines (renderParts "Story" "todo"
        (some (((_split_frontmatter (_render_story_content "Story" "todo" none)).1.getD [])
          ++ ["owner: me"]))
        (_split_frontmatter (_render_story_content "Story" "todo" none)).2)) := by
  have H := C2_roundtrip_amended "Story" "todo" "owner: me" (by decide) (by decide)
    (by decide) (by decide) (by decide) (by decide) (by decide) (by decide) (by decide)
    (by decide) (by decide) (by decide)
  exact ⟨⟨by decide, by decide, by decide⟩, H.1, H.2.1, H.2.2.1⟩

/-- C2 counterexample: with the quoted title `"x"` (a title whose text
itself begins and ends with a double quote), the round trip does NOT
recover the title: the codec renders `title: ""x""` and `extractValue`
strips every leading/trailing quote, returning `x`. -/
theorem C2_counterexample_quoted_title :
    (_extract_frontmatter_value (pySplitlines (renderParts "\"x\"" "todo"
        (some (((_split_frontmatter (_render_story_content "\"x\"" "todo" none)).1.getD [])
          ++ ["owner: me"]))
        (_split_frontmatter (_render_story_content "\"x\"" "todo" none)).2)) "title" =
      some "x") ∧ ("x" : String) ≠ "\"x\"" := by
  refine ⟨by decide, by decide⟩

end BmadSync
